import Mathlib

/-!
Shallow embedding of `app.py` (King County offense dashboard).

The script is a single pandas/geopandas pipeline plus three Dash callbacks.
External inputs (the downloaded incident CSV and the ZCTA boundary
shapefile) are modelled as explicit list parameters `raw` and `bnd`; the
module-level cleaned table `df` becomes `clean raw`, the filtered boundary
table `zip_geo` becomes `zip_geo raw bnd`, and each callback becomes a pure
function of those tables and the dropdown selections.
-/

namespace KCApp

/-- Python `str.zfill` on the character list of a string: left-pad with `'0'`
to reach `width`, keeping a leading sign character in front; a string already
of length ≥ `width` is returned unchanged (no truncation). -/
def zfillChars (width : Nat) (cs : List Char) : List Char :=
  if width ≤ cs.length then cs
  else
    match cs with
    | [] => List.replicate width '0'
    | c :: rest =>
      if c = '-' ∨ c = '+' then c :: (List.replicate (width - cs.length) '0' ++ rest)
      else List.replicate (width - cs.length) '0' ++ (c :: rest)

/-- Python `str.zfill`, embedding `.str.zfill(5)` of `app.py` line 23. -/
def zfill (width : Nat) (s : String) : String :=
  ⟨zfillChars width s.data⟩

/-- A parsed `incident_datetime` value (calendar fields, to-the-second). -/
structure Timestamp where
  year : Nat
  month : Nat
  day : Nat
  hour : Nat
  minute : Nat
  second : Nat
deriving DecidableEq, Repr

/-- Chronological order on timestamps: lexicographic on
(year, month, day, hour, minute, second), as pandas `Timestamp` comparison. -/
def Timestamp.le (a b : Timestamp) : Bool :=
  if a.year ≠ b.year then decide (a.year < b.year)
  else if a.month ≠ b.month then decide (a.month < b.month)
  else if a.day ≠ b.day then decide (a.day < b.day)
  else if a.hour ≠ b.hour then decide (a.hour < b.hour)
  else if a.minute ≠ b.minute then decide (a.minute < b.minute)
  else decide (a.second ≤ b.second)

/-- The value `pd.Timestamp("2020-01-01")` of `app.py` line 21. -/
def cutoff : Timestamp := ⟨2020, 1, 1, 0, 0, 0⟩

/-- A raw CSV row after `pd.to_datetime(..., errors="coerce")` (line 18):
`zip` is `str(value)` of the raw ZIP cell (`none` = missing), the category is
`nibrs_code_name` (`none` = missing), and `incident_datetime` is the parsed
timestamp (`none` = NaT, i.e. missing or unparseable). -/
structure RawRow where
  zip : Option String
  nibrs_code_name : Option String
  incident_datetime : Option Timestamp
deriving DecidableEq, Repr

/-- A cleaned row of `df` after lines 21-25: non-null fields, normalized
`zip`, derived `Month_Year` ("YYYY-MM") and `hour`. -/
structure Row where
  zip : String
  nibrs_code_name : String
  incident_datetime : Timestamp
  Month_Year : String
  hour : Nat
deriving DecidableEq, Repr

/-- The row predicate of line 21, `df["incident_datetime"] >= pd.Timestamp("2020-01-01")`:
comparison of NaT with a timestamp is `False` in pandas, so a missing
datetime never passes. -/
def passesCutoff (r : RawRow) : Bool :=
  match r.incident_datetime with
  | some t => Timestamp.le cutoff t
  | none => false

/-- Row kept by `dropna(subset=["zip", "nibrs_code_name", "incident_datetime"])` (line 22). -/
def rowComplete (r : RawRow) : Bool :=
  r.zip.isSome && r.nibrs_code_name.isSome && r.incident_datetime.isSome

/-- Row kept by a `dropna` restricted to `["zip", "nibrs_code_name"]` (for the
comparison pipeline of the refinement claim). -/
def rowCompleteZipCat (r : RawRow) : Bool :=
  r.zip.isSome && r.nibrs_code_name.isSome

/-- Embeds `str(timestamp.to_period("M"))` (line 24): "YYYY-MM" with 2-digit month. -/
def monthYearStr (t : Timestamp) : String :=
  toString t.year ++ "-" ++ zfill 2 (toString t.month)

/-- Column steps of lines 23-25 on a complete row: normalize `zip` with
`zfill 5`, derive `Month_Year` and `hour`. Returns `none` on an incomplete
row (which the preceding `dropna` has already removed). -/
def finalizeRow (r : RawRow) : Option Row :=
  match r.zip, r.nibrs_code_name, r.incident_datetime with
  | some z, some c, some t =>
    some { zip := zfill 5 z, nibrs_code_name := c, incident_datetime := t,
           Month_Year := monthYearStr t, hour := t.hour }
  | _, _, _ => none

/-- The cleaned table `df` (lines 18-25): cutoff filter, then `dropna` on
zip/category/datetime, then the column derivations. -/
def clean (raw : List RawRow) : List Row :=
  (((raw.filter passesCutoff).filter rowComplete).filterMap finalizeRow)

/-- Variant pipeline whose `dropna` omits `incident_datetime`, used to state
that the cutoff filter already removed all NaT rows. -/
def cleanAlt (raw : List RawRow) : List Row :=
  (((raw.filter passesCutoff).filter rowCompleteZipCat).filterMap finalizeRow)

/-- A row of the raw ZCTA boundary shapefile: ZCTA identifier plus an opaque
geometry (modelled as a tag; the code never inspects geometry contents). -/
structure BoundaryRow where
  ZCTA5CE20 : String
  geometry : Nat
deriving DecidableEq, Repr

/-- A boundary row after line 44 added the `zip` column (a copy of `ZCTA5CE20`). -/
structure GeoRow where
  ZCTA5CE20 : String
  geometry : Nat
  zip : String
deriving DecidableEq, Repr

/-- Embeds `df["zip"].unique()` (line 45) as a duplicate-free list. -/
def uniqueZips (rows : List Row) : List String :=
  (rows.map Row.zip).dedup

/-- Line 44: `zip_geo["zip"] = zip_geo["ZCTA5CE20"]`. -/
def addZipColumn (b : BoundaryRow) : GeoRow :=
  ⟨b.ZCTA5CE20, b.geometry, b.ZCTA5CE20⟩

/-- Lines 43-45: the boundary table restricted to ZIPs present in `df`
(`zip_geo[zip_geo["zip"].isin(df["zip"].unique())]`). -/
def zip_geo (raw : List RawRow) (bnd : List BoundaryRow) : List GeoRow :=
  (bnd.map addZipColumn).filter (fun g => decide (g.zip ∈ uniqueZips (clean raw)))

/-- Sort key `pd.Period(x, freq='M')` of line 50 for a "YYYY-MM" string,
as a month index. -/
def periodKey (s : String) : Nat :=
  match s.splitOn "-" with
  | [y, m] => (y.toNat?).getD 0 * 12 + (m.toNat?).getD 0
  | _ => 0

/-- Line 50: `sorted(df["Month_Year"].dropna().unique(), key=pd.Period)`.
`Month_Year` is derived from non-null datetimes, so its `dropna` drops nothing. -/
def month_options (raw : List RawRow) : List String :=
  (((clean raw).map Row.Month_Year).dedup).mergeSort
    (fun a b => decide (periodKey a ≤ periodKey b))

/-- Line 51: `sorted(df["nibrs_code_name"].unique())` (lexicographic). -/
def crime_options (raw : List RawRow) : List String :=
  (((clean raw).map Row.nibrs_code_name).dedup).mergeSort (fun a b => decide (a ≤ b))

/-- Embeds `groupby(key).size().reset_index(name="count")`: one `(key, group size)`
pair per distinct key value of `l`. -/
def groupCounts {α K : Type} [DecidableEq K] (key : α → K) (l : List α) : List (K × Nat) :=
  ((l.map key).dedup).map (fun k => (k, (l.map key).count k))

/-- Row predicate of lines 93-94 of `update_map`. -/
def matchesFilter (selected_crime selected_month : String) (r : Row) : Bool :=
  r.nibrs_code_name == selected_crime && r.Month_Year == selected_month

/-- Lines 92-95: the per-ZIP aggregate `agg` of `update_map`. -/
def mapAgg (raw : List RawRow) (selected_crime selected_month : String) : List (String × Nat) :=
  groupCounts Row.zip ((clean raw).filter (matchesFilter selected_crime selected_month))

/-- Embeds `left.merge(right, on="zip", how="left")` (line 98): every left row is
kept; it is paired with each right row of equal key, or with `none` (NaN)
when no right row matches. -/
def leftMergeCounts (left : List GeoRow) (right : List (String × Nat)) :
    List (GeoRow × Option Nat) :=
  left.flatMap (fun g =>
    let ms := right.filter (fun p => p.1 == g.zip)
    if ms.isEmpty then [(g, none)] else ms.map (fun p => (g, some p.2)))

/-- Embeds `update_map` (lines 90-99) up to the data handed to the choropleth: the
merged table with `count` after `fillna(0)`; rendering styling is outside
the model. -/
def update_map (raw : List RawRow) (bnd : List BoundaryRow)
    (selected_crime selected_month : String) : List (GeoRow × Nat) :=
  (leftMergeCounts (zip_geo raw bnd) (mapAgg raw selected_crime selected_month)).map
    (fun p => (p.1, p.2.getD 0))

/-- Embeds `update_trend` (lines 124-131) up to the data handed to the line chart:
group by `Month_Year`, count, `sort_values("Month_Year")` (string order). -/
def update_trend (raw : List RawRow) (selected_crime : String) : List (String × Nat) :=
  (groupCounts Row.Month_Year
      ((clean raw).filter (fun r => r.nibrs_code_name == selected_crime))).mergeSort
    (fun a b => decide (a.1 ≤ b.1))

/-- Embeds `update_hourly_trend` (lines 147-154): group by `hour`, count,
`sort_values("hour")`. -/
def update_hourly_trend (raw : List RawRow) (selected_crime : String) : List (Nat × Nat) :=
  (groupCounts Row.hour
      ((clean raw).filter (fun r => r.nibrs_code_name == selected_crime))).mergeSort
    (fun a b => decide (a.1 ≤ b.1))

/-- The two dropdown values the Dash app holds (lines 61-72). -/
structure UIState where
  selected_crime : String
  selected_month : String

/-- The map callback as a function of the full UI state (it subscribes to
both dropdowns, lines 85-89). -/
def mapView (raw : List RawRow) (bnd : List BoundaryRow) (s : UIState) : List (GeoRow × Nat) :=
  update_map raw bnd s.selected_crime s.selected_month

/-- The monthly-trend callback as a function of the full UI state (it
subscribes only to the crime dropdown, lines 120-123). -/
def trendView (raw : List RawRow) (s : UIState) : List (String × Nat) :=
  update_trend raw s.selected_crime

/-- The hourly-trend callback as a function of the full UI state (it
subscribes only to the crime dropdown, lines 143-146). -/
def hourlyView (raw : List RawRow) (s : UIState) : List (Nat × Nat) :=
  update_hourly_trend raw s.selected_crime

end KCApp
namespace KCApp

lemma zfillChars_length (width : Nat) (cs : List Char) :
    (zfillChars width cs).length = max width cs.length := by
  unfold zfillChars
  split
  · omega
  · split
    · simp
    · split
      · simp
        omega
      · simp
        omega

lemma length_zfill (width : Nat) (s : String) :
    (zfill width s).length = max width s.length := by
  show (zfillChars width s.data).length = max width s.data.length
  exact zfillChars_length width s.data

lemma zfill_of_le {width : Nat} {s : String} (h : width ≤ s.length) :
    zfill width s = s := by
  have hd : width ≤ s.data.length := h
  unfold zfill zfillChars
  rw [if_pos hd]

lemma clean_mem {raw : List RawRow} {r : Row} (h : r ∈ clean raw) :
    Timestamp.le cutoff r.incident_datetime = true ∧ ∃ z : String, r.zip = zfill 5 z := by
  unfold clean at h
  obtain ⟨rr, hrr, hfin⟩ := List.mem_filterMap.mp h
  have hcut : passesCutoff rr = true := List.of_mem_filter (List.mem_of_mem_filter hrr)
  rcases rr with ⟨oz, oc, ot⟩
  cases ot with
  | none => simp [passesCutoff] at hcut
  | some t =>
    cases oz with
    | none => simp [finalizeRow] at hfin
    | some z =>
      cases oc with
      | none => simp [finalizeRow] at hfin
      | some c =>
        simp only [finalizeRow, Option.some.injEq] at hfin
        subst hfin
        refine ⟨?_, z, rfl⟩
        simpa [passesCutoff] using hcut

lemma dropna_eq_of_cutoff (rs : List RawRow) (hall : ∀ r ∈ rs, passesCutoff r = true) :
    rs.filter rowComplete = rs.filter rowCompleteZipCat := by
  apply List.filter_congr
  intro r hr
  have hc := hall r hr
  rcases r with ⟨oz, oc, ot⟩
  cases ot with
  | none => simp [passesCutoff] at hc
  | some t => simp [rowComplete, rowCompleteZipCat]

end KCApp
namespace KCApp

lemma sum_groupCounts {α K : Type} [DecidableEq K] (key : α → K) (l : List α) :
    (((groupCounts key l).map Prod.snd).sum) = l.length := by
  unfold groupCounts
  rw [List.map_map]
  have := List.sum_map_count_dedup_eq_length (l.map key)
  simpa [Function.comp] using this

lemma filter_fst_beq_map {K : Type} [DecidableEq K] [BEq K] [LawfulBEq K]
    (f : K → Nat) (z : K) (ks : List K) (hks : ks.Nodup) :
    (ks.map (fun k => (k, f k))).filter (fun p => p.1 == z)
      = if z ∈ ks then [(z, f z)] else [] := by
  induction ks with
  | nil => simp
  | cons k ks ih =>
    rcases List.nodup_cons.mp hks with ⟨hk, hks2⟩
    by_cases hzk : k = z
    · subst hzk
      simp [List.filter_cons, ih hks2, hk]
    · have hiff : (z = k ∨ z ∈ ks) ↔ z ∈ ks := by
        constructor
        · rintro (h | h)
          · exact absurd h.symm hzk
          · exact h
        · exact Or.inr
      simp [List.filter_cons, hzk, ih hks2, hiff]

end KCApp
namespace KCApp

lemma leftMergeCounts_groupCounts (left : List GeoRow) (mz : List String) :
    (leftMergeCounts left (mz.dedup.map (fun k => (k, mz.count k)))).map
        (fun p => (p.1, p.2.getD 0))
      = left.map (fun g => (g, mz.count g.zip)) := by
  induction left with
  | nil => rfl
  | cons g gs ih =>
    unfold leftMergeCounts at *
    rw [List.flatMap_cons, List.map_append, ih]
    rw [filter_fst_beq_map (fun k => mz.count k) g.zip mz.dedup (List.nodup_dedup mz)]
    by_cases hm : g.zip ∈ mz.dedup
    · simp [hm]
    · have h0 : mz.count g.zip = 0 :=
        List.count_eq_zero.mpr (fun hc => hm ((List.mem_dedup).mpr hc))
      simp [hm, h0]

lemma update_map_eq (raw : List RawRow) (bnd : List BoundaryRow) (c m : String) :
    update_map raw bnd c m
      = (zip_geo raw bnd).map (fun g =>
          (g, (((clean raw).filter (matchesFilter c m)).map Row.zip).count g.zip)) := by
  unfold update_map mapAgg groupCounts
  exact leftMergeCounts_groupCounts (zip_geo raw bnd)
    (((clean raw).filter (matchesFilter c m)).map Row.zip)

lemma map_zip_zip_geo (raw : List RawRow) (bnd : List BoundaryRow) :
    (zip_geo raw bnd).map GeoRow.zip
      = (bnd.map BoundaryRow.ZCTA5CE20).filter
          (fun z => decide (z ∈ uniqueZips (clean raw))) := by
  unfold zip_geo
  induction bnd with
  | nil => rfl
  | cons b bs ih =>
    simp only [List.map_cons, List.filter_cons]
    by_cases hb : b.ZCTA5CE20 ∈ uniqueZips (clean raw)
    · simp [addZipColumn, hb, ih]
    · simp [addZipColumn, hb, ih]

end KCApp
namespace KCApp

/-- C2: every cleaned record's parsed timestamp is on or after the fixed
cutoff 2020-01-01, the boundary being inclusive: a raw row stamped
2019-12-31 is excluded, and one stamped exactly 2020-01-01T00:00:00 (with
non-null ZIP and category) is retained. -/
theorem cutoff_filter_inclusive :
    (∀ (raw : List RawRow) (r : Row), r ∈ clean raw →
        Timestamp.le cutoff r.incident_datetime = true) ∧
    clean [(⟨some "98101", some "LARCENY/THEFT", some ⟨2019, 12, 31, 0, 0, 0⟩⟩ : RawRow)] = [] ∧
    clean [(⟨some "98101", some "LARCENY/THEFT", some ⟨2020, 1, 1, 0, 0, 0⟩⟩ : RawRow)]
      = [⟨"98101", "LARCENY/THEFT", ⟨2020, 1, 1, 0, 0, 0⟩, "2020-01", 0⟩] :=
  ⟨fun _ _ h => (clean_mem h).1, by decide, by decide⟩

theorem cutoff_filter_inclusive_witness :
    Timestamp.le cutoff ⟨2020, 1, 1, 0, 0, 0⟩ = true :=
  cutoff_filter_inclusive.1
    [(⟨some "98101", some "LARCENY/THEFT", some ⟨2020, 1, 1, 0, 0, 0⟩⟩ : RawRow)]
    ⟨"98101", "LARCENY/THEFT", ⟨2020, 1, 1, 0, 0, 0⟩, "2020-01", 0⟩ (by decide)

/-- C3 counterexample: `zfill 5` does not truncate, so a raw ZIP whose
string form has six characters yields a cleaned record whose ZIP is not
exactly 5 characters long. -/
theorem zip_exactly_five_counterexample :
    ¬ (∀ r ∈ clean [(⟨some "940161", some "BURGLARY", some ⟨2021, 5, 1, 0, 0, 0⟩⟩ : RawRow)],
        r.zip.length = 5) := by decide

/-- C3 amended: ZIP normalization casts to string and left-pads with zeros
to 5 characters, so every cleaned record's ZIP has at least 5 characters
(exactly 5 when the raw string was no longer than 5); "98101" round-trips
unchanged and "8101" becomes "08101". -/
theorem zip_at_least_five_chars :
    (∀ (raw : List RawRow) (r : Row), r ∈ clean raw → 5 ≤ r.zip.length) ∧
    zfill 5 "98101" = "98101" ∧ zfill 5 "8101" = "08101" ∧
    (clean [(⟨some "8101", some "BURGLARY", some ⟨2021, 5, 1, 0, 0, 0⟩⟩ : RawRow)]).map Row.zip
      = ["08101"] := by
  refine ⟨?_, by decide, by decide, by decide⟩
  intro raw r h
  obtain ⟨-, z, hz⟩ := clean_mem h
  rw [hz, length_zfill]
  exact le_max_left _ _

theorem zip_at_least_five_chars_witness : 5 ≤ ("08101" : String).length :=
  zip_at_least_five_chars.1
    [(⟨some "8101", some "BURGLARY", some ⟨2021, 5, 1, 0, 0, 0⟩⟩ : RawRow)]
    ⟨"08101", "BURGLARY", ⟨2021, 5, 1, 0, 0, 0⟩, "2021-05", 0⟩ (by decide)

/-- C4: every boundary record retained by the join-prep filter has a ZIP
that occurs among the cleaned incidents' ZIPs (no orphan geometries). -/
theorem zip_geo_no_orphans (raw : List RawRow) (bnd : List BoundaryRow)
    (g : GeoRow) (h : g ∈ zip_geo raw bnd) : g.zip ∈ uniqueZips (clean raw) := by
  unfold zip_geo at h
  exact of_decide_eq_true (List.mem_filter.mp h).2

theorem zip_geo_no_orphans_witness :
    (⟨"98101", 3, "98101"⟩ : GeoRow).zip
      ∈ uniqueZips (clean [(⟨some "98101", some "X", some ⟨2020, 1, 1, 0, 0, 0⟩⟩ : RawRow)]) :=
  zip_geo_no_orphans [(⟨some "98101", some "X", some ⟨2020, 1, 1, 0, 0, 0⟩⟩ : RawRow)]
    [⟨"98101", 3⟩] ⟨"98101", 3, "98101"⟩ (by decide)

/-- C7: both trend views are functions of the selected category and the base
table alone; changing the month selection never changes either view. -/
theorem trend_views_month_independent (raw : List RawRow) (cat m1 m2 : String) :
    trendView raw ⟨cat, m1⟩ = trendView raw ⟨cat, m2⟩ ∧
    hourlyView raw ⟨cat, m1⟩ = hourlyView raw ⟨cat, m2⟩ :=
  ⟨rfl, rfl⟩

/-- C9: `zfill 5` never truncates: a string of length ≥ 5 is returned
unchanged, so cleaning imposes no upper bound of 5 on the ZIP length. -/
theorem zfill_no_truncation (s : String) (h : 5 ≤ s.length) :
    zfill 5 s = s ∧ (zfill 5 s).length = s.length := by
  refine ⟨zfill_of_le h, ?_⟩
  rw [zfill_of_le h]

theorem zfill_no_truncation_witness :
    zfill 5 "940161" = "940161" ∧ (zfill 5 "940161").length = "940161".length :=
  zfill_no_truncation "940161" (by decide)

/-- C10: the cutoff filter alone removes every row whose timestamp failed to
parse, so a `dropna` over zip/category/timestamp yields the same cleaned
table as one over zip/category only. -/
theorem cutoff_subsumes_datetime_dropna (raw : List RawRow) :
    clean raw = cleanAlt raw := by
  unfold clean cleanAlt
  rw [dropna_eq_of_cutoff (raw.filter passesCutoff) (fun r hr => List.of_mem_filter hr)]

end KCApp
namespace KCApp

/-- C5: for every category, the monthly trend counts sum to the number of
cleaned incidents of that category, and so do the hourly trend counts (the
group-by-and-count partitions the category's records). -/
theorem trend_counts_partition (raw : List RawRow) (cat : String) :
    ((update_trend raw cat).map Prod.snd).sum
      = ((clean raw).filter (fun r => r.nibrs_code_name == cat)).length ∧
    ((update_hourly_trend raw cat).map Prod.snd).sum
      = ((clean raw).filter (fun r => r.nibrs_code_name == cat)).length := by
  constructor
  · unfold update_trend
    rw [List.Perm.sum_eq (List.Perm.map Prod.snd (List.mergeSort_perm _ _))]
    exact sum_groupCounts _ _
  · unfold update_hourly_trend
    rw [List.Perm.sum_eq (List.Perm.map Prod.snd (List.mergeSort_perm _ _))]
    exact sum_groupCounts _ _

/-- C8: the left join of the per-ZIP aggregate onto the retained boundary
table yields exactly one output row per retained boundary row, in order,
with the boundary fields unchanged and only the count added (the aggregate's
ZIP keys are unique, so no boundary row is dropped or duplicated). -/
theorem merge_one_row_per_boundary (raw : List RawRow) (bnd : List BoundaryRow)
    (c m : String) :
    (update_map raw bnd c m).map Prod.fst = zip_geo raw bnd := by
  rw [update_map_eq, List.map_map]
  exact List.map_id _

/-- C6: the category option list is duplicate-free and lexicographically
sorted; the month option list is duplicate-free and sorted chronologically
by calendar period. -/
theorem option_lists_sorted_nodup (raw : List RawRow) :
    (crime_options raw).Nodup ∧ (crime_options raw).Pairwise (fun a b => a ≤ b) ∧
    (month_options raw).Nodup ∧
    (month_options raw).Pairwise (fun a b => periodKey a ≤ periodKey b) := by
  refine ⟨?_, ?_, ?_, ?_⟩
  · unfold crime_options
    exact ((List.mergeSort_perm _ _).nodup_iff).mpr (List.nodup_dedup _)
  · unfold crime_options
    have htrans : ∀ a b c : String,
        (decide (a ≤ b)) = true → (decide (b ≤ c)) = true → (decide (a ≤ c)) = true := by
      intro a b c h1 h2
      exact decide_eq_true (le_trans (of_decide_eq_true h1) (of_decide_eq_true h2))
    have htotal : ∀ a b : String, (decide (a ≤ b) || decide (b ≤ a)) = true := by
      intro a b
      rcases le_total a b with h | h
      · simp [h]
      · simp [h]
    have hp := @List.sorted_mergeSort String (fun a b => decide (a ≤ b)) htrans htotal
      (((clean raw).map Row.nibrs_code_name).dedup)
    exact hp.imp (fun h => of_decide_eq_true h)
  · unfold month_options
    exact ((List.mergeSort_perm _ _).nodup_iff).mpr (List.nodup_dedup _)
  · unfold month_options
    have htrans : ∀ a b c : String,
        (decide (periodKey a ≤ periodKey b)) = true →
        (decide (periodKey b ≤ periodKey c)) = true →
        (decide (periodKey a ≤ periodKey c)) = true := by
      intro a b c h1 h2
      exact decide_eq_true (le_trans (of_decide_eq_true h1) (of_decide_eq_true h2))
    have htotal : ∀ a b : String,
        (decide (periodKey a ≤ periodKey b) || decide (periodKey b ≤ periodKey a)) = true := by
      intro a b
      rcases le_total (periodKey a) (periodKey b) with h | h
      · simp [h]
      · simp [h]
    have hp := @List.sorted_mergeSort String
      (fun a b => decide (periodKey a ≤ periodKey b)) htrans htotal
      (((clean raw).map Row.Month_Year).dedup)
    exact hp.imp (fun h => of_decide_eq_true h)

end KCApp
namespace KCApp

/-- C1 counterexample: a cleaned incident whose ZIP has no boundary row is
silently dropped from the map, so with an empty boundary table the per-ZIP
counts sum to 0 while one cleaned incident matches the selection. -/
theorem map_counts_sum_counterexample :
    ¬ (((update_map [(⟨some "98101", some "X", some ⟨2020, 2, 3, 10, 0, 0⟩⟩ : RawRow)]
          [] "X" "2020-02").map Prod.snd).sum
        = ((clean [(⟨some "98101", some "X", some ⟨2020, 2, 3, 10, 0, 0⟩⟩ : RawRow)]).filter
            (matchesFilter "X" "2020-02")).length) := by decide

/-- C1 amended: provided the boundary table's ZCTA identifiers are distinct
and every cleaned incident ZIP has a boundary row, the map view's per-ZIP
counts sum to exactly the number of cleaned incidents matching the selected
(category, month); and unconditionally every retained boundary ZIP with no
matching incident carries count 0 (not a missing value). -/
theorem map_counts_sum_amended (raw : List RawRow) (bnd : List BoundaryRow)
    (c m : String) :
    ((bnd.map BoundaryRow.ZCTA5CE20).Nodup →
      (∀ r ∈ clean raw, r.zip ∈ bnd.map BoundaryRow.ZCTA5CE20) →
      ((update_map raw bnd c m).map Prod.snd).sum
        = ((clean raw).filter (matchesFilter c m)).length) ∧
    ∀ p ∈ update_map raw bnd c m,
      (∀ r ∈ (clean raw).filter (matchesFilter c m), r.zip ≠ p.1.zip) → p.2 = 0 := by
  constructor
  · intro hnodup hcover
    rw [update_map_eq, List.map_map]
    show ((zip_geo raw bnd).map
        (fun g => (((clean raw).filter (matchesFilter c m)).map Row.zip).count g.zip)).sum
      = ((clean raw).filter (matchesFilter c m)).length
    have hmm : ((zip_geo raw bnd).map
          (fun g => (((clean raw).filter (matchesFilter c m)).map Row.zip).count g.zip))
        = (((zip_geo raw bnd).map GeoRow.zip).map
            (fun z => (((clean raw).filter (matchesFilter c m)).map Row.zip).count z)) := by
      simp only [List.map_map]
      rfl
    rw [hmm]
    rw [map_zip_zip_geo]
    have hZnodup : ((bnd.map BoundaryRow.ZCTA5CE20).filter
        (fun z => decide (z ∈ uniqueZips (clean raw)))).Nodup := hnodup.filter _
    rw [← List.sum_toFinset _ hZnodup]
    have hsub : (((clean raw).filter (matchesFilter c m)).map Row.zip).toFinset
        ⊆ ((bnd.map BoundaryRow.ZCTA5CE20).filter
            (fun z => decide (z ∈ uniqueZips (clean raw)))).toFinset := by
      intro z hz
      rw [List.mem_toFinset] at hz ⊢
      obtain ⟨r, hrM, hrz⟩ := List.mem_map.mp hz
      have hrclean : r ∈ clean raw := List.mem_of_mem_filter hrM
      rw [List.mem_filter]
      subst hrz
      refine ⟨hcover r hrclean, ?_⟩
      rw [decide_eq_true_eq]
      unfold uniqueZips
      exact List.mem_dedup.mpr (List.mem_map_of_mem Row.zip hrclean)
    have hzero : ∀ z ∈ ((bnd.map BoundaryRow.ZCTA5CE20).filter
          (fun z => decide (z ∈ uniqueZips (clean raw)))).toFinset,
        z ∉ (((clean raw).filter (matchesFilter c m)).map Row.zip).toFinset →
        (((clean raw).filter (matchesFilter c m)).map Row.zip).count z = 0 := by
      intro z _ hz
      exact List.count_eq_zero.mpr (fun hc => hz (List.mem_toFinset.mpr hc))
    rw [← Finset.sum_subset hsub hzero]
    rw [List.sum_toFinset_count_eq_length]
    exact List.length_map _ _
  · intro p hp hnone
    rw [update_map_eq] at hp
    obtain ⟨g, hg, hpe⟩ := List.mem_map.mp hp
    subst hpe
    show (((clean raw).filter (matchesFilter c m)).map Row.zip).count g.zip = 0
    refine List.count_eq_zero.mpr (fun hc => ?_)
    obtain ⟨r, hrM, hrz⟩ := List.mem_map.mp hc
    exact hnone r hrM hrz

theorem map_counts_sum_amended_witness :
    (((update_map [(⟨some "98101", some "X", some ⟨2020, 2, 3, 10, 0, 0⟩⟩ : RawRow)]
        [⟨"98101", 7⟩] "X" "2020-02").map Prod.snd).sum
      = ((clean [(⟨some "98101", some "X", some ⟨2020, 2, 3, 10, 0, 0⟩⟩ : RawRow)]).filter
          (matchesFilter "X" "2020-02")).length) ∧
    ((⟨"98039", 9, "98039"⟩, 0) : GeoRow × Nat).2 = 0 :=
  ⟨(map_counts_sum_amended [(⟨some "98101", some "X", some ⟨2020, 2, 3, 10, 0, 0⟩⟩ : RawRow)]
      [⟨"98101", 7⟩] "X" "2020-02").1 (by decide) (by decide),
   (map_counts_sum_amended
      [(⟨some "98101", some "X", some ⟨2020, 2, 3, 10, 0, 0⟩⟩ : RawRow),
       (⟨some "98039", some "Y", some ⟨2020, 3, 4, 11, 0, 0⟩⟩ : RawRow)]
      [⟨"98101", 7⟩, ⟨"98039", 9⟩] "X" "2020-02").2
      (⟨"98039", 9, "98039"⟩, 0) (by decide) (by decide)⟩

end KCApp
